import Mathlib

/-!
# AudioAlarm edge detection (ESP8266 alarm monitor)

A shallow embedding of `AudioAlarm.h` / `AudioAlarm.cpp`.

* The object is a record of its five member variables.
* A handler slot is `Option H`: `none` is the null function pointer, `some h` a
  registered function `h`.  Handlers are taken not to touch the `AudioAlarm`
  themselves, so invoking one only leaves a mark in the list of effects; handlers that do
  act on the object are treated separately by `handleAlarmWith`.
* `handleAlarm` takes the value that `digitalRead(2)` returns as an argument and
  returns the new object together with the effects of the call, in program order.
-/

namespace AlarmMonitor

/-! ## Arduino core constants -/

/-- Arduino core constant `HIGH` (`#define HIGH 0x1` in `Arduino.h`). -/
def HIGH : Int := 1

/-- Arduino core constant `LOW` (`#define LOW 0x0` in `Arduino.h`). -/
def LOW : Int := 0

/-- Arduino core constant `INPUT` (`#define INPUT 0x00` in `Arduino.h`). -/
def INPUT : Int := 0

/-! ## Data model -/

/-- Externally visible actions of `handleAlarm`, in the order the code performs them. -/
inductive Effect (H : Type) where
  /-- Call `pinMode(pin, mode)`. -/
  | pinMode (pin : Nat) (mode : Int) : Effect H
  /-- Call `digitalRead(pin)`, which returned `value`. -/
  | digitalRead (pin : Nat) (value : Int) : Effect H
  /-- Call `_triggeredHandler()`, the slot holding `h`. -/
  | triggered (h : H) : Effect H
  /-- Call `_clearedHandler()`, the slot holding `h`. -/
  | cleared (h : H) : Effect H
  deriving DecidableEq

/-- Member variables of `class AudioAlarm` (AudioAlarm.h, lines 29-33). -/
structure AudioAlarm (H : Type) where
  /-- Field `THandlerFunction _triggeredHandler`. -/
  _triggeredHandler : Option H
  /-- Field `THandlerFunction _clearedHandler`. -/
  _clearedHandler : Option H
  /-- Field `int _currentState`. -/
  _currentState : Int
  /-- Field `int _lastState`. -/
  _lastState : Int
  /-- Field `bool _initialized = false`. -/
  _initialized : Bool
  deriving DecidableEq

variable {H : Type}

/-- An `AudioAlarm` on which `handleAlarm` has not run yet: `_initialized` is `false` by its
default member initialiser; the handler slots hold what has been registered so far (`none`
when nothing has), and the two state integers hold whatever the storage held (`cur`, `last`). -/
def fresh (t c : Option H) (cur last : Int) : AudioAlarm H :=
  { _triggeredHandler := t, _clearedHandler := c,
    _currentState := cur, _lastState := last, _initialized := false }

/-! ## Operations -/

/-- Method `AudioAlarm::onAlarmTriggered` (AudioAlarm.cpp, lines 27-29). -/
def onAlarmTriggered (a : AudioAlarm H) (handler : Option H) : AudioAlarm H :=
  { a with _triggeredHandler := handler }

/-- Method `AudioAlarm::onAlarmCleared` (AudioAlarm.cpp, lines 38-40). -/
def onAlarmCleared (a : AudioAlarm H) (handler : Option H) : AudioAlarm H :=
  { a with _clearedHandler := handler }

/-- Lines 54-59 of `handleAlarm`: the `if (!_initialized) { ... }` block. -/
def handleAlarm_init (a : AudioAlarm H) : AudioAlarm H × List (Effect H) :=
  if a._initialized = false then
    ({ a with _lastState := HIGH, _currentState := HIGH, _initialized := true },
      [Effect.pinMode 2 INPUT])
  else
    (a, [])

/-- Line 61 of `handleAlarm`: `_currentState = digitalRead(2);` where the read returns
`reading`. -/
def handleAlarm_read (a : AudioAlarm H) (reading : Int) : AudioAlarm H × List (Effect H) :=
  ({ a with _currentState := reading }, [Effect.digitalRead 2 reading])

/-- Lines 62-65 of `handleAlarm`:
`if (_currentState == LOW && _lastState == HIGH && _triggeredHandler) { ... }`. -/
def handleAlarm_triggered (a : AudioAlarm H) : AudioAlarm H × List (Effect H) :=
  if a._currentState = LOW ∧ a._lastState = HIGH then
    match a._triggeredHandler with
    | some h => ({ a with _lastState := a._currentState }, [Effect.triggered h])
    | none => (a, [])
  else
    (a, [])

/-- Lines 66-69 of `handleAlarm`:
`if (_currentState == HIGH && _lastState == LOW && _clearedHandler) { ... }`. -/
def handleAlarm_cleared (a : AudioAlarm H) : AudioAlarm H × List (Effect H) :=
  if a._currentState = HIGH ∧ a._lastState = LOW then
    match a._clearedHandler with
    | some h => ({ a with _lastState := a._currentState }, [Effect.cleared h])
    | none => (a, [])
  else
    (a, [])

/-- Method `AudioAlarm::handleAlarm` (AudioAlarm.cpp, lines 53-70): the four statements of
its body, one after the other. -/
def handleAlarm (a : AudioAlarm H) (reading : Int) : AudioAlarm H × List (Effect H) :=
  let s1 := handleAlarm_init a
  let s2 := handleAlarm_read s1.1 reading
  let s3 := handleAlarm_triggered s2.1
  let s4 := handleAlarm_cleared s3.1
  (s4.1, s1.2 ++ s2.2 ++ s3.2 ++ s4.2)

/-- The main loop: one `handleAlarm` call per reading, in order; the object afterwards. -/
def run (a : AudioAlarm H) (readings : List Int) : AudioAlarm H :=
  readings.foldl (fun s r => (handleAlarm s r).1) a

/-- Effects of poll number `k` (counted from 0) when `handleAlarm` is called once per
reading: the call runs on the object left by the first `k` polls. -/
def pollEffects (a : AudioAlarm H) (readings : List Int) (k : Nat) : List (Effect H) :=
  match readings[k]? with
  | some r => (handleAlarm (run a (readings.take k)) r).2
  | none => []

/-! ## Observations on effect lists -/

/-- Number of `_triggeredHandler()` calls in a list of effects. -/
def triggeredCalls : List (Effect H) → Nat
  | [] => 0
  | Effect.triggered _ :: es => triggeredCalls es + 1
  | _ :: es => triggeredCalls es

/-- Number of `_clearedHandler()` calls in a list of effects. -/
def clearedCalls : List (Effect H) → Nat
  | [] => 0
  | Effect.cleared _ :: es => clearedCalls es + 1
  | _ :: es => clearedCalls es

/-- Number of `pinMode` calls in a list of effects. -/
def pinModeCalls : List (Effect H) → Nat
  | [] => 0
  | Effect.pinMode _ _ :: es => pinModeCalls es + 1
  | _ :: es => pinModeCalls es

/-- The handler invocations of a list of effects, in order. -/
def handlerCalls : List (Effect H) → List (Effect H)
  | [] => []
  | Effect.triggered h :: es => Effect.triggered h :: handlerCalls es
  | Effect.cleared h :: es => Effect.cleared h :: handlerCalls es
  | _ :: es => handlerCalls es

/-- The polling step as the specification words it (`poll()`, steps 1-5): initialise on the
very first call, read, then *if* falling edge with a handler / *else if* rising edge with a
handler / *otherwise* nothing beyond the read. -/
def specPoll (a : AudioAlarm H) (reading : Int) : AudioAlarm H × List (Effect H) :=
  let s1 : AudioAlarm H × List (Effect H) :=
    if a._initialized = false then
      ({ a with _lastState := HIGH, _currentState := HIGH, _initialized := true },
        [Effect.pinMode 2 INPUT])
    else (a, [])
  let s2 : AudioAlarm H := { s1.1 with _currentState := reading }
  let e2 : List (Effect H) := s1.2 ++ [Effect.digitalRead 2 reading]
  if s2._currentState = LOW ∧ s2._lastState = HIGH ∧ s2._triggeredHandler.isSome = true then
    ({ s2 with _lastState := s2._currentState },
      e2 ++ (s2._triggeredHandler.map Effect.triggered).toList)
  else if s2._currentState = HIGH ∧ s2._lastState = LOW ∧ s2._clearedHandler.isSome = true then
    ({ s2 with _lastState := s2._currentState },
      e2 ++ (s2._clearedHandler.map Effect.cleared).toList)
  else
    (s2, e2)

/-- Reading that precedes poll `k`; for the first poll it is the `HIGH` baseline. -/
def predecessor (readings : List Int) : Nat → Int
  | 0 => HIGH
  | k + 1 => readings.getD k HIGH

/-- The last state on which the edge tests of a call operate: `_lastState` once the object
is initialised, the `HIGH` baseline before. -/
def baseline (a : AudioAlarm H) : Int :=
  if a._initialized = false then HIGH else a._lastState

/-! ## Calls made by the owning sketch -/

/-- One call on the object from the code that owns it: a registration or a poll whose pin
read returns `reading`. -/
inductive Op (H : Type) where
  /-- Call `onAlarmTriggered(handler)`. -/
  | regTriggered (handler : Option H) : Op H
  /-- Call `onAlarmCleared(handler)`. -/
  | regCleared (handler : Option H) : Op H
  /-- Call `handleAlarm()`, during which `digitalRead(2)` returns `reading`. -/
  | poll (reading : Int) : Op H
  deriving DecidableEq

/-- Perform one call: the object afterwards and the effects of the call.  The two
registration methods only assign a member variable, so they have no effect. -/
def step (a : AudioAlarm H) : Op H → AudioAlarm H × List (Effect H)
  | Op.regTriggered h => (onAlarmTriggered a h, [])
  | Op.regCleared h => (onAlarmCleared a h, [])
  | Op.poll r => handleAlarm a r

/-- Perform a sequence of calls in order: the object afterwards and all effects. -/
def exec (a : AudioAlarm H) : List (Op H) → AudioAlarm H × List (Effect H)
  | [] => (a, [])
  | op :: ops => ((exec (step a op).1 ops).1, (step a op).2 ++ (exec (step a op).1 ops).2)

/-- The readings taken by the polls of a sequence of calls, in order. -/
def readingsOf : List (Op H) → List Int
  | [] => []
  | Op.poll r :: ops => r :: readingsOf ops
  | _ :: ops => readingsOf ops

/-- Whether the call is a poll. -/
def Op.isPoll : Op H → Bool
  | Op.poll _ => true
  | _ => false

/-- Whether the call registers a (non-null) triggered handler. -/
def Op.registersTriggered : Op H → Bool
  | Op.regTriggered (some _) => true
  | _ => false

/-- Whether the call registers a (non-null) cleared handler. -/
def Op.registersCleared : Op H → Bool
  | Op.regCleared (some _) => true
  | _ => false

/-! ## Handlers that act on the object -/

theorem LOW_ne_HIGH : LOW ≠ HIGH := by decide

theorem handleAlarm_handlers (a : AudioAlarm H) (r : Int) :
    (handleAlarm a r).1._triggeredHandler = a._triggeredHandler ∧
    (handleAlarm a r).1._clearedHandler = a._clearedHandler := by
  obtain ⟨t, c, cu, la, ini⟩ := a
  cases t <;> cases c <;> cases ini <;>
    simp [handleAlarm, handleAlarm_init, handleAlarm_read, handleAlarm_triggered,
      handleAlarm_cleared] <;> split_ifs <;> simp

theorem handleAlarm_initialized (a : AudioAlarm H) (r : Int) :
    (handleAlarm a r).1._initialized = true := by
  obtain ⟨t, c, cu, la, ini⟩ := a
  cases t <;> cases c <;> cases ini <;>
    simp [handleAlarm, handleAlarm_init, handleAlarm_read, handleAlarm_triggered,
      handleAlarm_cleared] <;> split_ifs <;> simp

theorem handleAlarm_currentState (a : AudioAlarm H) (r : Int) :
    (handleAlarm a r).1._currentState = r := by
  obtain ⟨t, c, cu, la, ini⟩ := a
  cases t <;> cases c <;> cases ini <;>
    simp [handleAlarm, handleAlarm_init, handleAlarm_read, handleAlarm_triggered,
      handleAlarm_cleared] <;> split_ifs <;> simp

/-! ## Basic facts about `run` -/

theorem run_nil (a : AudioAlarm H) : run a [] = a := rfl

theorem run_cons (a : AudioAlarm H) (r : Int) (rs : List Int) :
    run a (r :: rs) = run (handleAlarm a r).1 rs := rfl

theorem run_append (a : AudioAlarm H) (xs ys : List Int) :
    run a (xs ++ ys) = run (run a xs) ys := by
  simp [run, List.foldl_append]

theorem run_take_succ (a : AudioAlarm H) (rs : List Int) (k : Nat) (r : Int)
    (h : rs[k]? = some r) :
    run a (rs.take (k + 1)) = (handleAlarm (run a (rs.take k)) r).1 := by
  rw [List.take_succ, run_append, h]
  rfl

theorem pollEffects_eq (a : AudioAlarm H) (rs : List Int) (k : Nat) (r : Int)
    (h : rs[k]? = some r) :
    pollEffects a rs k = (handleAlarm (run a (rs.take k)) r).2 := by
  simp [pollEffects, h]

theorem run_handlers (a : AudioAlarm H) (rs : List Int) :
    (run a rs)._triggeredHandler = a._triggeredHandler ∧
    (run a rs)._clearedHandler = a._clearedHandler := by
  induction rs generalizing a with
  | nil => exact ⟨rfl, rfl⟩
  | cons r rs ih =>
    rw [run_cons]
    have h1 := ih (handleAlarm a r).1
    have h2 := handleAlarm_handlers a r
    exact ⟨h1.1.trans h2.1, h1.2.trans h2.2⟩

theorem run_initialized (a : AudioAlarm H) (rs : List Int)
    (h : a._initialized = true ∨ rs ≠ []) : (run a rs)._initialized = true := by
  induction rs generalizing a with
  | nil => simpa using h
  | cons r rs ih =>
    rw [run_cons]
    exact ih _ (Or.inl (handleAlarm_initialized a r))

theorem baseline_of_initialized (a : AudioAlarm H) (h : a._initialized = true) :
    baseline a = a._lastState := by
  simp [baseline, h]

theorem baseline_fresh (t c : Option H) (cur last : Int) :
    baseline (fresh t c cur last) = HIGH := by
  simp [baseline, fresh]

theorem handleAlarm_lastState (a : AudioAlarm H) (r : Int) :
    (handleAlarm a r).1._lastState =
      if (r = LOW ∧ baseline a = HIGH ∧ a._triggeredHandler.isSome = true) ∨
          (r = HIGH ∧ baseline a = LOW ∧ a._clearedHandler.isSome = true)
      then r else baseline a := by
  obtain ⟨t, c, cu, la, ini⟩ := a
  have hne := @LOW_ne_HIGH
  cases t <;> cases c <;> cases ini <;>
    simp [handleAlarm, handleAlarm_init, handleAlarm_read, handleAlarm_triggered,
      handleAlarm_cleared, baseline] <;> split_ifs <;> first | simp_all; done | tauto

theorem handleAlarm_triggeredCalls (a : AudioAlarm H) (r : Int) :
    triggeredCalls (handleAlarm a r).2 =
      if r = LOW ∧ baseline a = HIGH ∧ a._triggeredHandler.isSome = true then 1 else 0 := by
  obtain ⟨t, c, cu, la, ini⟩ := a
  have hne := @LOW_ne_HIGH
  cases t <;> cases c <;> cases ini <;>
    simp [handleAlarm, handleAlarm_init, handleAlarm_read, handleAlarm_triggered,
      handleAlarm_cleared, baseline, triggeredCalls] <;> split_ifs <;>
    simp_all [triggeredCalls]

theorem handleAlarm_clearedCalls (a : AudioAlarm H) (r : Int) :
    clearedCalls (handleAlarm a r).2 =
      if r = HIGH ∧ baseline a = LOW ∧ a._clearedHandler.isSome = true then 1 else 0 := by
  obtain ⟨t, c, cu, la, ini⟩ := a
  have hne := @LOW_ne_HIGH
  cases t <;> cases c <;> cases ini <;>
    simp [handleAlarm, handleAlarm_init, handleAlarm_read, handleAlarm_triggered,
      handleAlarm_cleared, baseline, clearedCalls] <;> split_ifs <;>
    simp_all [clearedCalls]

theorem baseline_handleAlarm (a : AudioAlarm H) (r : Int) :
    baseline (handleAlarm a r).1 = (handleAlarm a r).1._lastState :=
  baseline_of_initialized _ (handleAlarm_initialized a r)

/-! ## Both handlers registered -/

theorem getElem?_two_valued (rs : List Int) (hrs : ∀ r ∈ rs, r = HIGH ∨ r = LOW)
    (k : Nat) (r : Int) (hk : rs[k]? = some r) : r = HIGH ∨ r = LOW :=
  hrs r (List.getElem?_mem hk)

theorem predecessor_succ (rs : List Int) (j : Nat) (r : Int) (h : rs[j]? = some r) :
    predecessor rs (j + 1) = r := by
  simp [predecessor, h]

theorem predecessor_two_valued (rs : List Int) (hrs : ∀ r ∈ rs, r = HIGH ∨ r = LOW)
    (k : Nat) (hk : k ≤ rs.length) : predecessor rs k = HIGH ∨ predecessor rs k = LOW := by
  cases k with
  | zero => exact Or.inl rfl
  | succ j =>
    have hj : j < rs.length := hk
    have hget : rs[j]? = some rs[j] := List.getElem?_eq_getElem hj
    rw [predecessor_succ rs j _ hget]
    exact getElem?_two_valued rs hrs j _ hget

/-- With both handlers registered, the edge tests of poll `k` see the previous reading. -/
theorem both_baseline (ht hc : H) (cur last : Int) (rs : List Int)
    (hrs : ∀ r ∈ rs, r = HIGH ∨ r = LOW) (k : Nat) (hk : k ≤ rs.length) :
    baseline (run (fresh (some ht) (some hc) cur last) (rs.take k)) = predecessor rs k := by
  induction k with
  | zero => simp [run_nil, baseline_fresh, predecessor]
  | succ j ih =>
    have hj : j < rs.length := hk
    have hget : rs[j]? = some rs[j] := List.getElem?_eq_getElem hj
    have hprev := ih (Nat.le_of_lt hj)
    have hp2 := predecessor_two_valued rs hrs j (Nat.le_of_lt hj)
    have hr2 := getElem?_two_valued rs hrs j _ hget
    have hh := run_handlers (fresh (some ht) (some hc) cur last) (rs.take j)
    rw [run_take_succ _ rs j _ hget, baseline_handleAlarm, handleAlarm_lastState, hprev,
      hh.1, hh.2, predecessor_succ rs j _ hget]
    have hne := @LOW_ne_HIGH
    generalize predecessor rs j = p at hp2 ⊢
    generalize rs[j] = r at hr2 ⊢
    simp only [fresh, Option.isSome_some, and_true]
    split_ifs with h
    · rfl
    · rcases hp2 with h1 | h1 <;> rcases hr2 with h2 | h2 <;> simp_all

/-! ## A first reading of `LOW` -/

/-- After the first poll, `_lastState` can only be `HIGH` again once some later poll has
read `HIGH`. -/
theorem lastState_high_needs_high_reading (a : AudioAlarm H) (rs : List Int) (k : Nat)
    (h1 : 1 ≤ k) (hk : k ≤ rs.length)
    (hfirst : (run a (rs.take 1))._lastState = LOW)
    (hlast : (run a (rs.take k))._lastState = HIGH) :
    ∃ j, 1 ≤ j ∧ j < k ∧ rs[j]? = some HIGH := by
  induction k with
  | zero => omega
  | succ n ih =>
    rcases Nat.eq_zero_or_pos n with h0 | hpos
    · subst h0
      rw [hfirst] at hlast
      exact absurd hlast LOW_ne_HIGH
    · have hn : n < rs.length := hk
      have hget : rs[n]? = some rs[n] := List.getElem?_eq_getElem hn
      have hinit : (run a (rs.take n))._initialized = true := by
        apply run_initialized
        right
        intro hnil
        have hlen := congrArg List.length hnil
        rw [List.length_take, List.length_nil] at hlen
        omega
      rw [run_take_succ a rs n _ hget, handleAlarm_lastState,
        baseline_of_initialized _ hinit] at hlast
      split_ifs at hlast with hfire
      · rcases hfire with ⟨hl, -, -⟩ | ⟨hh, -, -⟩
        · rw [hl] at hlast
          exact absurd hlast LOW_ne_HIGH
        · exact ⟨n, hpos, Nat.lt_succ_self n, by rw [hget, hh]⟩
      · obtain ⟨j, hj1, hj2, hj3⟩ := ih hpos (Nat.le_of_lt hn) hlast
        exact ⟨j, hj1, Nat.lt_succ_of_lt hj2, hj3⟩

/-! ## Claims -/

/-- C1 (evaluation at the failing input). Readings `[HIGH, LOW, HIGH, LOW]`, only the
triggered handler registered: the third reading is `HIGH` and the fourth is `LOW`, yet the
fourth poll does not invoke the triggered handler, because `_lastState` stayed `LOW` when the
rising edge of the third poll found no cleared handler. -/
theorem C1_second_falling_edge_not_reported :
    [HIGH, LOW, HIGH, LOW][2]? = some HIGH ∧ [HIGH, LOW, HIGH, LOW][3]? = some LOW ∧
    triggeredCalls (pollEffects (fresh (some 7) none 0 0 : AudioAlarm Nat)
      [HIGH, LOW, HIGH, LOW] 3) = 0 ∧
    (run (fresh (some 7) none 0 0 : AudioAlarm Nat) [HIGH, LOW, HIGH])._lastState = LOW := by
  decide

/-- C2 (evaluation at the failing input). Readings `[LOW, HIGH]`, only the cleared handler
registered: the first reading is `LOW` and the second is `HIGH`, yet the second poll does not
invoke the cleared handler, because `_lastState` stayed `HIGH` when the falling edge of the
first poll found no triggered handler. -/
theorem C2_rising_edge_not_reported :
    [LOW, HIGH][0]? = some LOW ∧ [LOW, HIGH][1]? = some HIGH ∧
    clearedCalls (pollEffects (fresh none (some 8) 0 0 : AudioAlarm Nat) [LOW, HIGH] 1) = 0 ∧
    (run (fresh none (some 8) 0 0 : AudioAlarm Nat) [LOW])._lastState = HIGH := by
  decide

/-- C3 (as stated, refuted). Readings `[LOW, HIGH]`, only the triggered handler registered:
it is not the case that no handler is invoked on either poll; the first poll invokes the
triggered handler. -/
theorem C3_first_low_reading_counterexample :
    ¬ (handlerCalls (pollEffects (fresh (some 7) none 0 0 : AudioAlarm Nat) [LOW, HIGH] 0) = [] ∧
       handlerCalls (pollEffects (fresh (some 7) none 0 0 : AudioAlarm Nat) [LOW, HIGH] 1) = [])
    := by
  decide

/-- C3 (amended). When the first reading is `LOW` and a triggered handler is registered, the
first `handleAlarm` call invokes the triggered handler, once, and nothing else (the baseline
is `HIGH`); on a later poll `k` the triggered handler is invoked only if that poll reads `LOW`
and some poll after the first and before `k` has read `HIGH`.  For readings `[LOW, HIGH]`
with only the triggered handler registered, the first poll invokes the triggered handler once
and the second poll invokes nothing. -/
theorem C3_first_low_reading_fires_at_once (ht : H) (c : Option H) (cur last : Int)
    (rs : List Int) :
    handlerCalls (pollEffects (fresh (some ht) c cur last) (LOW :: rs) 0)
      = [Effect.triggered ht] ∧
    (∀ k, 1 ≤ k → triggeredCalls (pollEffects (fresh (some ht) c cur last) (LOW :: rs) k) ≠ 0 →
      (LOW :: rs)[k]? = some LOW ∧ ∃ j, 1 ≤ j ∧ j < k ∧ (LOW :: rs)[j]? = some HIGH) ∧
    handlerCalls (pollEffects (fresh (some ht) none cur last) [LOW, HIGH] 0)
      = [Effect.triggered ht] ∧
    handlerCalls (pollEffects (fresh (some ht) none cur last) [LOW, HIGH] 1) = [] := by
  have hne := @LOW_ne_HIGH
  refine ⟨?_, ?_, ?_, ?_⟩
  · cases c <;>
      simp [pollEffects, run, fresh, handleAlarm, handleAlarm_init, handleAlarm_read,
        handleAlarm_triggered, handleAlarm_cleared, handlerCalls, hne, Ne.symm hne]
  · intro k hk1 hfire
    cases hget : (LOW :: rs)[k]? with
    | none => simp [pollEffects, hget, triggeredCalls] at hfire
    | some r =>
      have hklt : k < (LOW :: rs).length := by
        by_contra hcon
        rw [List.getElem?_eq_none (Nat.le_of_not_lt hcon)] at hget
        exact Option.noConfusion hget
      rw [pollEffects_eq _ _ k r hget, handleAlarm_triggeredCalls] at hfire
      split_ifs at hfire with hcond
      · obtain ⟨hr, hb, -⟩ := hcond
        have hinit : (run (fresh (some ht) c cur last) ((LOW :: rs).take k))._initialized
            = true := by
          apply run_initialized
          right
          intro hnil
          have hlen := congrArg List.length hnil
          rw [List.length_take, List.length_nil] at hlen
          omega
        rw [baseline_of_initialized _ hinit] at hb
        refine ⟨by rw [hr], ?_⟩
        apply lastState_high_needs_high_reading _ _ k hk1 (Nat.le_of_lt hklt) _ hb
        cases c <;>
          simp [run, fresh, handleAlarm, handleAlarm_init, handleAlarm_read,
            handleAlarm_triggered, handleAlarm_cleared, hne, Ne.symm hne]
      · exact absurd rfl hfire
  · simp [pollEffects, run, fresh, handleAlarm, handleAlarm_init, handleAlarm_read,
      handleAlarm_triggered, handleAlarm_cleared, handlerCalls, hne, Ne.symm hne]
  · simp [pollEffects, run, fresh, handleAlarm, handleAlarm_init, handleAlarm_read,
      handleAlarm_triggered, handleAlarm_cleared, handlerCalls, hne, Ne.symm hne]

/-- C3 (amended), applied to readings `[LOW, HIGH, LOW]` with both handlers registered: the
triggered handler fires on the third poll, and indeed the second poll read `HIGH`. -/
theorem C3_first_low_reading_fires_at_once_witness :
    (1 : Nat) ≤ 2 ∧
    triggeredCalls (pollEffects (fresh (some 7) (some 8) 0 0 : AudioAlarm Nat)
      (LOW :: [HIGH, LOW]) 2) ≠ 0 ∧
    ((LOW :: [HIGH, LOW])[2]? = some LOW ∧
      ∃ j, 1 ≤ j ∧ j < 2 ∧ (LOW :: [HIGH, LOW])[j]? = some HIGH) :=
  ⟨by decide, by decide,
    (C3_first_low_reading_fires_at_once (7 : Nat) (some 8) 0 0 [HIGH, LOW]).2.1 2
      (by decide) (by decide)⟩

/-- C4. With both handlers registered before the first poll, for every sequence of
`HIGH`/`LOW` readings and every poll `k` with reading `r`: after that call `_lastState` and
`_currentState` both equal `r`; the triggered handler is invoked once if `r` is `LOW` and the
predecessor reading (`HIGH` for the first poll) is `HIGH`, and not otherwise; the cleared
handler is invoked once if `r` is `HIGH` and the predecessor reading is `LOW`, and not
otherwise.  For readings `[HIGH, LOW, LOW, HIGH]` the handler calls of the four polls are:
none, the triggered handler, none, the cleared handler. -/
theorem C4_both_handlers_report_every_edge (ht hc : H) (cur last : Int) :
    (∀ rs : List Int, (∀ r ∈ rs, r = HIGH ∨ r = LOW) → ∀ (k : Nat) (r : Int),
      rs[k]? = some r →
      (run (fresh (some ht) (some hc) cur last) (rs.take (k + 1)))._lastState = r ∧
      (run (fresh (some ht) (some hc) cur last) (rs.take (k + 1)))._currentState = r ∧
      triggeredCalls (pollEffects (fresh (some ht) (some hc) cur last) rs k)
        = (if r = LOW ∧ predecessor rs k = HIGH then 1 else 0) ∧
      clearedCalls (pollEffects (fresh (some ht) (some hc) cur last) rs k)
        = (if r = HIGH ∧ predecessor rs k = LOW then 1 else 0)) ∧
    [0, 1, 2, 3].map (fun k => handlerCalls
        (pollEffects (fresh (some ht) (some hc) cur last) [HIGH, LOW, LOW, HIGH] k))
      = [[], [Effect.triggered ht], [], [Effect.cleared hc]] := by
  have hne := @LOW_ne_HIGH
  constructor
  · intro rs hrs k r hget
    have hklt : k < rs.length := by
      by_contra hcon
      rw [List.getElem?_eq_none (Nat.le_of_not_lt hcon)] at hget
      exact Option.noConfusion hget
    have hb := both_baseline ht hc cur last rs hrs k (Nat.le_of_lt hklt)
    have hb1 := both_baseline ht hc cur last rs hrs (k + 1) hklt
    have hh := run_handlers (fresh (some ht) (some hc) cur last) (rs.take k)
    have hinit : (run (fresh (some ht) (some hc) cur last) (rs.take (k + 1)))._initialized
        = true := by
      rw [run_take_succ _ rs k r hget]
      exact handleAlarm_initialized _ _
    refine ⟨?_, ?_, ?_, ?_⟩
    · rw [← baseline_of_initialized _ hinit, hb1, predecessor_succ rs k r hget]
    · rw [run_take_succ _ rs k r hget]
      exact handleAlarm_currentState _ _
    · rw [pollEffects_eq _ rs k r hget, handleAlarm_triggeredCalls, hb, hh.1]
      simp [fresh]
    · rw [pollEffects_eq _ rs k r hget, handleAlarm_clearedCalls, hb, hh.2]
      simp [fresh]
  · simp [pollEffects, run, fresh, handleAlarm, handleAlarm_init, handleAlarm_read,
      handleAlarm_triggered, handleAlarm_cleared, handlerCalls, hne, Ne.symm hne]

/-- C4, applied to the fourth poll of readings `[HIGH, LOW, LOW, HIGH]`. -/
theorem C4_both_handlers_report_every_edge_witness :
    (∀ r ∈ [HIGH, LOW, LOW, HIGH], r = HIGH ∨ r = LOW) ∧
    [HIGH, LOW, LOW, HIGH][3]? = some HIGH ∧
    (run (fresh (some 7) (some 8) 0 0 : AudioAlarm Nat)
      ([HIGH, LOW, LOW, HIGH].take (3 + 1)))._lastState = HIGH ∧
    (run (fresh (some 7) (some 8) 0 0 : AudioAlarm Nat)
      ([HIGH, LOW, LOW, HIGH].take (3 + 1)))._currentState = HIGH ∧
    triggeredCalls (pollEffects (fresh (some 7) (some 8) 0 0 : AudioAlarm Nat)
        [HIGH, LOW, LOW, HIGH] 3)
      = (if HIGH = LOW ∧ predecessor [HIGH, LOW, LOW, HIGH] 3 = HIGH then 1 else 0) ∧
    clearedCalls (pollEffects (fresh (some 7) (some 8) 0 0 : AudioAlarm Nat)
        [HIGH, LOW, LOW, HIGH] 3)
      = (if HIGH = HIGH ∧ predecessor [HIGH, LOW, LOW, HIGH] 3 = LOW then 1 else 0) :=
  ⟨by decide, by decide,
    (C4_both_handlers_report_every_edge (7 : Nat) 8 0 0).1 [HIGH, LOW, LOW, HIGH]
      (by decide) 3 HIGH (by decide)⟩

/-- C5 (evaluation at the failing input). Readings `[LOW, HIGH, LOW]`, only the triggered
handler registered: the third poll takes the first `LOW` reading that is preceded by a `HIGH`
reading, yet it does not invoke the triggered handler; the handler's only invocation is on
the first poll. -/
theorem C5_first_low_after_high_not_reported :
    [LOW, HIGH, LOW][1]? = some HIGH ∧ [LOW, HIGH, LOW][2]? = some LOW ∧
    [0, 1, 2].map (fun k => triggeredCalls
        (pollEffects (fresh (some 7) none 0 0 : AudioAlarm Nat) [LOW, HIGH, LOW] k))
      = [1, 0, 0] := by
  decide

/-- C6 (evaluation at the failing inputs). Readings `[HIGH, LOW, HIGH, LOW]`: with only the
triggered handler registered it is invoked on poll 1 alone, with both handlers registered on
polls 1 and 3.  Readings `[LOW, HIGH]`: with only the cleared handler registered it is never
invoked, with both handlers registered it is invoked on poll 1. -/
theorem C6_unregistered_direction_alters_the_other :
    [0, 1, 2, 3].map (fun k => triggeredCalls
        (pollEffects (fresh (some 7) none 0 0 : AudioAlarm Nat) [HIGH, LOW, HIGH, LOW] k))
      = [0, 1, 0, 0] ∧
    [0, 1, 2, 3].map (fun k => triggeredCalls
        (pollEffects (fresh (some 7) (some 8) 0 0 : AudioAlarm Nat) [HIGH, LOW, HIGH, LOW] k))
      = [0, 1, 0, 1] ∧
    [0, 1].map (fun k => clearedCalls
        (pollEffects (fresh none (some 8) 0 0 : AudioAlarm Nat) [LOW, HIGH] k))
      = [0, 0] ∧
    [0, 1].map (fun k => clearedCalls
        (pollEffects (fresh (some 7) (some 8) 0 0 : AudioAlarm Nat) [LOW, HIGH] k))
      = [0, 1] := by
  decide

/-- C7. Registration is single-slot, last in wins: after `onAlarmTriggered(h1)` followed by
`onAlarmTriggered(h2)` the triggered slot holds `h2`, and a following `handleAlarm` call that
detects a falling edge (reading `LOW` against the `HIGH` baseline or a `HIGH` `_lastState`)
makes exactly one handler call, to `h2`; likewise after `onAlarmCleared(h1)` followed by
`onAlarmCleared(h2)` the cleared slot holds `h2`, and a following call that detects a rising
edge makes exactly one handler call, to `h2`. -/
theorem C7_registration_last_in_wins (a : AudioAlarm H) (h1 h2 : H) (r : Int) :
    (onAlarmTriggered (onAlarmTriggered a (some h1)) (some h2))._triggeredHandler = some h2 ∧
    (onAlarmCleared (onAlarmCleared a (some h1)) (some h2))._clearedHandler = some h2 ∧
    (r = LOW → (a._initialized = false ∨ a._lastState = HIGH) →
      handlerCalls (handleAlarm (onAlarmTriggered (onAlarmTriggered a (some h1)) (some h2)) r).2
        = [Effect.triggered h2]) ∧
    (r = HIGH → (a._initialized = true ∧ a._lastState = LOW) →
      handlerCalls (handleAlarm (onAlarmCleared (onAlarmCleared a (some h1)) (some h2)) r).2
        = [Effect.cleared h2]) := by
  have hne := @LOW_ne_HIGH
  obtain ⟨t, c, cu, la, ini⟩ := a
  refine ⟨rfl, rfl, ?_, ?_⟩
  · rintro rfl (hi | hl)
    · simp only at hi
      subst hi
      cases c <;>
        simp [onAlarmTriggered, handleAlarm, handleAlarm_init, handleAlarm_read,
          handleAlarm_triggered, handleAlarm_cleared, handlerCalls, hne, Ne.symm hne]
    · simp only at hl
      subst hl
      cases c <;> cases ini <;>
        simp [onAlarmTriggered, handleAlarm, handleAlarm_init, handleAlarm_read,
          handleAlarm_triggered, handleAlarm_cleared, handlerCalls, hne, Ne.symm hne]
  · rintro rfl ⟨hi, hl⟩
    simp only at hi hl
    subst hi hl
    cases t <;>
      simp [onAlarmCleared, handleAlarm, handleAlarm_init, handleAlarm_read,
        handleAlarm_triggered, handleAlarm_cleared, handlerCalls, hne, Ne.symm hne]

/-- C7, applied to a fresh object on which handlers 1 and then 2 are registered as the
triggered handler, polled with a `LOW` reading. -/
theorem C7_registration_last_in_wins_witness :
    LOW = LOW ∧
    ((fresh none none 0 0 : AudioAlarm Nat)._initialized = false ∨
      (fresh none none 0 0 : AudioAlarm Nat)._lastState = HIGH) ∧
    handlerCalls (handleAlarm (onAlarmTriggered
        (onAlarmTriggered (fresh none none 0 0 : AudioAlarm Nat) (some 1)) (some 2)) LOW).2
      = [Effect.triggered 2] :=
  ⟨rfl, Or.inl rfl,
    (C7_registration_last_in_wins (fresh none none 0 0 : AudioAlarm Nat) 1 2 LOW).2.2.1
      rfl (Or.inl rfl)⟩

/-- C8. On an initialised object, for every reading: if the call invokes no handler
(also when the reading differs from `_lastState` but that direction has no handler), the
object afterwards is the one before with only `_currentState` set to the reading, so
`_lastState`, both handler slots and `_initialized` are unchanged; if the call invokes a
handler, `_lastState` equals the reading afterwards. -/
theorem C8_lastState_moves_only_with_a_handler_call (a : AudioAlarm H) (r : Int)
    (hinit : a._initialized = true) :
    (handlerCalls (handleAlarm a r).2 = [] →
      (handleAlarm a r).1 = { a with _currentState := r }) ∧
    (handlerCalls (handleAlarm a r).2 ≠ [] → (handleAlarm a r).1._lastState = r) := by
  have hne := @LOW_ne_HIGH
  obtain ⟨t, c, cu, la, ini⟩ := a
  simp only at hinit
  subst hinit
  cases t <;> cases c <;>
    simp only [handleAlarm, handleAlarm_init, handleAlarm_read, handleAlarm_triggered,
      handleAlarm_cleared] <;>
    split_ifs <;> simp_all [handlerCalls]

/-- C8, applied to an initialised object with `_lastState = HIGH` and only a cleared handler,
polled with `LOW`: no handler runs and `_lastState` stays `HIGH`. -/
theorem C8_lastState_moves_only_with_a_handler_call_witness :
    (⟨none, some 8, HIGH, HIGH, true⟩ : AudioAlarm Nat)._initialized = true ∧
    handlerCalls (handleAlarm (⟨none, some 8, HIGH, HIGH, true⟩ : AudioAlarm Nat) LOW).2 = [] ∧
    (handleAlarm (⟨none, some 8, HIGH, HIGH, true⟩ : AudioAlarm Nat) LOW).1
      = { (⟨none, some 8, HIGH, HIGH, true⟩ : AudioAlarm Nat) with _currentState := LOW } :=
  ⟨rfl, by decide,
    (C8_lastState_moves_only_with_a_handler_call
      (⟨none, some 8, HIGH, HIGH, true⟩ : AudioAlarm Nat) LOW rfl).1 (by decide)⟩

/-- C9. One-time lazy initialisation. On a fresh object polled with `r :: rs`:
the `if (!_initialized)` block of the first call configures pin 2 as `INPUT` and sets
`_lastState` and `_currentState` to `HIGH` and `_initialized` to `true`; the first call is
that `pinMode` followed by what the call does on the object so initialised, whose effects
begin with the pin read and contain no `pinMode`; `_initialized` is `true` after every call;
and in every later call the `if (!_initialized)` block changes nothing and has no effect, and
the call performs no `pinMode`. -/
theorem C9_lazy_initialisation_runs_once (t c : Option H) (cur last r : Int)
    (rs : List Int) :
    handleAlarm_init (fresh t c cur last)
      = (⟨t, c, HIGH, HIGH, true⟩, [Effect.pinMode 2 INPUT]) ∧
    (∃ es, pollEffects (fresh t c cur last) (r :: rs) 0
        = Effect.pinMode 2 INPUT :: Effect.digitalRead 2 r :: es ∧
      (handleAlarm (⟨t, c, HIGH, HIGH, true⟩ : AudioAlarm H) r).2
        = Effect.digitalRead 2 r :: es ∧
      pinModeCalls es = 0) ∧
    (handleAlarm (fresh t c cur last) r).1
      = (handleAlarm (⟨t, c, HIGH, HIGH, true⟩ : AudioAlarm H) r).1 ∧
    (∀ k, k < (r :: rs).length →
      (run (fresh t c cur last) ((r :: rs).take (k + 1)))._initialized = true) ∧
    (∀ k, 1 ≤ k → k < (r :: rs).length →
      handleAlarm_init (run (fresh t c cur last) ((r :: rs).take k))
        = (run (fresh t c cur last) ((r :: rs).take k), []) ∧
      pinModeCalls (pollEffects (fresh t c cur last) (r :: rs) k) = 0) := by
  have hrun : ∀ k, 1 ≤ k →
      (run (fresh t c cur last) ((r :: rs).take k))._initialized = true := by
    intro k hk
    apply run_initialized
    right
    intro hnil
    have hlen := congrArg List.length hnil
    rw [List.length_take, List.length_nil, List.length_cons] at hlen
    omega
  have hpin : ∀ (s : AudioAlarm H) (x : Int), s._initialized = true →
      pinModeCalls (handleAlarm s x).2 = 0 := by
    intro s x hs
    obtain ⟨t2, c2, cu2, la2, ini2⟩ := s
    simp only at hs
    subst hs
    cases t2 <;> cases c2 <;>
      simp [handleAlarm, handleAlarm_init, handleAlarm_read, handleAlarm_triggered,
        handleAlarm_cleared, pinModeCalls] <;>
      split_ifs <;> simp [pinModeCalls]
  refine ⟨rfl, ?_, ?_, ?_, ?_⟩
  · refine ⟨(handleAlarm_triggered
        (handleAlarm_read (⟨t, c, HIGH, HIGH, true⟩ : AudioAlarm H) r).1).2 ++
      (handleAlarm_cleared (handleAlarm_triggered
        (handleAlarm_read (⟨t, c, HIGH, HIGH, true⟩ : AudioAlarm H) r).1).1).2, ?_, ?_, ?_⟩
    · simp [pollEffects, run, fresh, handleAlarm, handleAlarm_init, handleAlarm_read]
    · simp [handleAlarm, handleAlarm_init, handleAlarm_read]
    · have h := hpin (⟨t, c, HIGH, HIGH, true⟩ : AudioAlarm H) r rfl
      simpa [handleAlarm, handleAlarm_init, handleAlarm_read, pinModeCalls] using h
  · simp [fresh, handleAlarm, handleAlarm_init, handleAlarm_read]
  · intro k _
    exact hrun (k + 1) (Nat.succ_le_succ (Nat.zero_le k))
  · intro k hk1 hklt
    have hi := hrun k hk1
    refine ⟨?_, ?_⟩
    · simp [handleAlarm_init, hi]
    · have hget : (r :: rs)[k]? = some (r :: rs)[k] := List.getElem?_eq_getElem hklt
      rw [pollEffects_eq _ _ k _ hget]
      exact hpin _ _ hi

/-- C9, applied to a fresh object with a triggered handler polled with `[HIGH, LOW]`: the
second call leaves the initialisation block idle and performs no `pinMode`. -/
theorem C9_lazy_initialisation_runs_once_witness :
    (1 : Nat) ≤ 1 ∧ 1 < (HIGH :: [LOW]).length ∧
    handleAlarm_init (run (fresh (some 7) none 5 9 : AudioAlarm Nat) ((HIGH :: [LOW]).take 1))
      = (run (fresh (some 7) none 5 9 : AudioAlarm Nat) ((HIGH :: [LOW]).take 1), []) ∧
    pinModeCalls (pollEffects (fresh (some 7) none 5 9 : AudioAlarm Nat) (HIGH :: [LOW]) 1)
      = 0 :=
  ⟨by decide, by decide,
    (C9_lazy_initialisation_runs_once (some (7 : Nat)) none 5 9 HIGH [LOW]).2.2.2.2 1
      (by decide) (by decide)⟩

/-- C10. The two sequential `if` statements of `handleAlarm` compute what the
specification's if / else-if / otherwise computes: for every object, every reading and
every combination of registered handlers, `handleAlarm` and `specPoll` return the same
object and the same list of effects; and one `handleAlarm` call invokes at most one
handler. -/
theorem C10_sequential_ifs_equal_else_if (a : AudioAlarm H) (r : Int) :
    handleAlarm a r = specPoll a r ∧ (handlerCalls (handleAlarm a r).2).length ≤ 1 := by
  have hne := @LOW_ne_HIGH
  obtain ⟨t, c, cu, la, ini⟩ := a
  cases t <;> cases c <;> cases ini <;>
    simp [handleAlarm, specPoll, handleAlarm_init, handleAlarm_read,
      handleAlarm_triggered, handleAlarm_cleared, handlerCalls] <;>
    split_ifs <;> simp_all [handlerCalls]

/-! ## Facts about sequences of calls -/

theorem exec_append_fst (a : AudioAlarm H) (xs ys : List (Op H)) :
    (exec a (xs ++ ys)).1 = (exec (exec a xs).1 ys).1 := by
  induction xs generalizing a with
  | nil => rfl
  | cons op xs ih => simp [exec, ih]

theorem exec_append_snd (a : AudioAlarm H) (xs ys : List (Op H)) :
    (exec a (xs ++ ys)).2 = (exec a xs).2 ++ (exec (exec a xs).1 ys).2 := by
  induction xs generalizing a with
  | nil => rfl
  | cons op xs ih => simp [exec, ih, exec_append_fst]

theorem triggeredCalls_append (xs ys : List (Effect H)) :
    triggeredCalls (xs ++ ys) = triggeredCalls xs + triggeredCalls ys := by
  induction xs with
  | nil => simp [triggeredCalls]
  | cons e xs ih =>
    cases e <;> simp [triggeredCalls, ih]
    omega

theorem handlerCalls_append (xs ys : List (Effect H)) :
    handlerCalls (xs ++ ys) = handlerCalls xs ++ handlerCalls ys := by
  induction xs with
  | nil => simp [handlerCalls]
  | cons e xs ih => cases e <;> simp [handlerCalls, ih]

theorem step_of_not_poll (a : AudioAlarm H) (op : Op H) (h : op.isPoll = false) :
    (step a op).1._lastState = a._lastState ∧ (step a op).1._currentState = a._currentState ∧
    (step a op).1._initialized = a._initialized ∧ (step a op).2 = [] := by
  cases op with
  | regTriggered x => exact ⟨rfl, rfl, rfl, rfl⟩
  | regCleared x => exact ⟨rfl, rfl, rfl, rfl⟩
  | poll r => simp [Op.isPoll] at h

theorem exec_of_no_poll (regs : List (Op H)) (a : AudioAlarm H)
    (h : ∀ op ∈ regs, op.isPoll = false) :
    (exec a regs).1._lastState = a._lastState ∧
    (exec a regs).1._currentState = a._currentState ∧
    (exec a regs).1._initialized = a._initialized := by
  induction regs generalizing a with
  | nil => exact ⟨rfl, rfl, rfl⟩
  | cons op regs ih =>
    have h1 := step_of_not_poll a op (h op (List.mem_cons_self _ _))
    have h2 := ih (step a op).1 (fun o ho => h o (List.mem_cons_of_mem _ ho))
    simp only [exec]
    exact ⟨h2.1.trans h1.1, h2.2.1.trans h1.2.1, h2.2.2.trans h1.2.2.1⟩

theorem baseline_step_two_valued (a : AudioAlarm H) (op : Op H)
    (hop : ∀ x ∈ readingsOf [op], x = HIGH ∨ x = LOW)
    (ha : baseline a = HIGH ∨ baseline a = LOW) :
    baseline (step a op).1 = HIGH ∨ baseline (step a op).1 = LOW := by
  cases op with
  | regTriggered x => simpa [step, onAlarmTriggered, baseline] using ha
  | regCleared x => simpa [step, onAlarmCleared, baseline] using ha
  | poll r =>
    have hr : r = HIGH ∨ r = LOW := hop r (by simp [readingsOf])
    simp only [step]
    rw [baseline_handleAlarm, handleAlarm_lastState]
    split_ifs
    · exact hr
    · exact ha

theorem readingsOf_cons_subset (op : Op H) (ops : List (Op H)) :
    (∀ x ∈ readingsOf [op], x ∈ readingsOf (op :: ops)) ∧
    (∀ x ∈ readingsOf ops, x ∈ readingsOf (op :: ops)) := by
  cases op with
  | regTriggered h => simp [readingsOf]
  | regCleared h => simp [readingsOf]
  | poll r =>
    simp only [readingsOf, List.mem_cons]
    exact ⟨fun x hx => Or.inl (by simpa using hx), fun x hx => Or.inr hx⟩

theorem baseline_exec_two_valued (ops : List (Op H)) (a : AudioAlarm H)
    (hops : ∀ x ∈ readingsOf ops, x = HIGH ∨ x = LOW)
    (ha : baseline a = HIGH ∨ baseline a = LOW) :
    baseline (exec a ops).1 = HIGH ∨ baseline (exec a ops).1 = LOW := by
  induction ops generalizing a with
  | nil => exact ha
  | cons op ops ih =>
    have hsub := readingsOf_cons_subset op ops
    simp only [exec]
    apply ih
    · intro x hx
      exact hops x (hsub.2 x hx)
    · apply baseline_step_two_valued a op _ ha
      intro x hx
      exact hops x (hsub.1 x hx)

/-- C11. Two-valued state invariant. Take a fresh object (whatever its storage held) and any
sequence of registrations and polls whose readings are all `HIGH` or `LOW`, in which the most
recent poll read `r` (later calls, if any, are registrations). In the state reached,
`_lastState` is `HIGH` or `LOW`, `_currentState` is `HIGH` or `LOW`, and `_currentState`
equals `r`. -/
theorem C11_states_two_valued (t c : Option H) (cur last : Int)
    (before after : List (Op H)) (r : Int)
    (hbefore : ∀ x ∈ readingsOf before, x = HIGH ∨ x = LOW)
    (hr : r = HIGH ∨ r = LOW)
    (hafter : ∀ op ∈ after, op.isPoll = false) :
    ((exec (fresh t c cur last) (before ++ Op.poll r :: after)).1._lastState = HIGH ∨
      (exec (fresh t c cur last) (before ++ Op.poll r :: after)).1._lastState = LOW) ∧
    ((exec (fresh t c cur last) (before ++ Op.poll r :: after)).1._currentState = HIGH ∨
      (exec (fresh t c cur last) (before ++ Op.poll r :: after)).1._currentState = LOW) ∧
    (exec (fresh t c cur last) (before ++ Op.poll r :: after)).1._currentState = r := by
  have hb := baseline_exec_two_valued before (fresh t c cur last) hbefore
    (Or.inl (baseline_fresh t c cur last))
  have hfix := exec_of_no_poll after
    (handleAlarm (exec (fresh t c cur last) before).1 r).1 hafter
  have hstate : (exec (fresh t c cur last) (before ++ Op.poll r :: after)).1
      = (exec (handleAlarm (exec (fresh t c cur last) before).1 r).1 after).1 := by
    rw [exec_append_fst]
    rfl
  have hcur : (exec (fresh t c cur last) (before ++ Op.poll r :: after)).1._currentState = r := by
    rw [hstate, hfix.2.1]
    exact handleAlarm_currentState _ _
  refine ⟨?_, ?_, hcur⟩
  · rw [hstate, hfix.1, handleAlarm_lastState]
    split_ifs
    · exact hr
    · exact hb
  · rw [hcur]
    exact hr

/-- C11, applied to a fresh object holding garbage, polled `HIGH`, given a triggered
handler, polled `LOW`, then given a cleared handler. -/
theorem C11_states_two_valued_witness :
    (∀ x ∈ readingsOf ([Op.poll HIGH, Op.regTriggered (some 7)] : List (Op Nat)),
      x = HIGH ∨ x = LOW) ∧
    (LOW = HIGH ∨ LOW = LOW) ∧
    (∀ op ∈ ([Op.regCleared (some 8)] : List (Op Nat)), op.isPoll = false) ∧
    (exec (fresh none none 5 9 : AudioAlarm Nat)
      ([Op.poll HIGH, Op.regTriggered (some 7)] ++ Op.poll LOW :: [Op.regCleared (some 8)])
      ).1._currentState = LOW :=
  ⟨by decide, by decide, by decide,
    (C11_states_two_valued (none : Option Nat) none 5 9
      [Op.poll HIGH, Op.regTriggered (some 7)] [Op.regCleared (some 8)] LOW
      (by decide) (by decide) (by decide)).2.2⟩

/-! ## Facts about handlers that act on the object -/

theorem handlerCalls_eq_nil (es : List (Effect H))
    (ht : triggeredCalls es = 0) (hc : clearedCalls es = 0) : handlerCalls es = [] := by
  induction es with
  | nil => rfl
  | cons e es ih =>
    cases e with
    | pinMode p m => exact ih ht hc
    | digitalRead p v => exact ih ht hc
    | triggered h => simp [triggeredCalls] at ht
    | cleared h => simp [clearedCalls] at hc

theorem handleAlarm_without_triggered (a : AudioAlarm H) (r : Int)
    (ht : a._triggeredHandler = none) (hb : baseline a = HIGH) :
    (handleAlarm a r).1._lastState = HIGH ∧ handlerCalls (handleAlarm a r).2 = [] := by
  have hne := @LOW_ne_HIGH
  have hfalse : ¬ ((r = LOW ∧ baseline a = HIGH ∧ a._triggeredHandler.isSome = true) ∨
      (r = HIGH ∧ baseline a = LOW ∧ a._clearedHandler.isSome = true)) := by
    rintro (⟨-, -, h⟩ | ⟨-, h, -⟩)
    · rw [ht] at h
      exact Bool.noConfusion h
    · exact hne (h.symm.trans hb)
  constructor
  · rw [handleAlarm_lastState, if_neg hfalse]
    exact hb
  · apply handlerCalls_eq_nil
    · rw [handleAlarm_triggeredCalls, if_neg (fun h => hfalse (Or.inl h))]
    · rw [handleAlarm_clearedCalls, if_neg (fun h => hfalse (Or.inr h))]

theorem exec_without_triggered (ops : List (Op H)) (a : AudioAlarm H)
    (ht : a._triggeredHandler = none) (hb : baseline a = HIGH)
    (hops : ∀ op ∈ ops, op.registersTriggered = false) :
    baseline (exec a ops).1 = HIGH ∧ handlerCalls (exec a ops).2 = [] := by
  induction ops generalizing a with
  | nil => exact ⟨hb, rfl⟩
  | cons op ops ih =>
    have hop := hops op (List.mem_cons_self _ _)
    have hrest : ∀ o ∈ ops, o.registersTriggered = false :=
      fun o ho => hops o (List.mem_cons_of_mem _ ho)
    simp only [exec, handlerCalls_append]
    cases op with
    | regTriggered x =>
      cases x with
      | none =>
        have h := ih (step a (Op.regTriggered none)).1 rfl
          (by simpa [step, onAlarmTriggered, baseline] using hb) hrest
        exact ⟨h.1, by rw [h.2]; rfl⟩
      | some h0 => simp [Op.registersTriggered] at hop
    | regCleared x =>
      have h := ih (step a (Op.regCleared x)).1 ht
        (by simpa [step, onAlarmCleared, baseline] using hb) hrest
      exact ⟨h.1, by rw [h.2]; rfl⟩
    | poll r =>
      have h1 := handleAlarm_without_triggered a r ht hb
      have h := ih (step a (Op.poll r)).1
        ((handleAlarm_handlers a r).1.trans ht)
        ((baseline_handleAlarm a r).trans h1.1) hrest
      refine ⟨h.1, ?_⟩
      rw [h.2]
      simpa [step] using h1.2

/-- C13. If no triggered handler is ever registered then, whatever cleared handlers are
registered at whatever time and whatever the readings, `_lastState` is `HIGH` after every
`handleAlarm()` call and no handler (so in particular not the cleared handler) has been
invoked up to then.  For readings `[HIGH, LOW, HIGH]` with only the cleared handler
registered, none of the three polls invokes a handler. -/
theorem C13_cleared_never_fires_without_triggered (c : Option H) (cur last : Int) :
    (∀ (ops : List (Op H)) (r : Int), (∀ op ∈ ops, op.registersTriggered = false) →
      (exec (fresh none c cur last) (ops ++ [Op.poll r])).1._lastState = HIGH ∧
      handlerCalls (exec (fresh none c cur last) (ops ++ [Op.poll r])).2 = []) ∧
    (∀ hc : H, [0, 1, 2].map (fun k => handlerCalls
        (pollEffects (fresh none (some hc) cur last) [HIGH, LOW, HIGH] k)) = [[], [], []]) := by
  have hne := @LOW_ne_HIGH
  constructor
  · intro ops r hops
    have hall : ∀ op ∈ ops ++ [Op.poll r], op.registersTriggered = false := by
      intro op hop
      rcases List.mem_append.1 hop with h | h
      · exact hops op h
      · rw [List.mem_singleton.1 h]
        rfl
    have h := exec_without_triggered (ops ++ [Op.poll r]) (fresh none c cur last) rfl
      (baseline_fresh none c cur last) hall
    refine ⟨?_, h.2⟩
    have hinit : (exec (fresh none c cur last) (ops ++ [Op.poll r])).1._initialized = true := by
      rw [exec_append_fst]
      exact handleAlarm_initialized _ r
    rw [← baseline_of_initialized _ hinit]
    exact h.1
  · intro hc
    simp [pollEffects, run, fresh, handleAlarm, handleAlarm_init, handleAlarm_read,
      handleAlarm_triggered, handleAlarm_cleared, handlerCalls, hne, Ne.symm hne]

/-- C13, applied to polls `HIGH`, `LOW` with a cleared handler registered in between,
followed by a poll reading `HIGH`. -/
theorem C13_cleared_never_fires_without_triggered_witness :
    (∀ op ∈ ([Op.poll HIGH, Op.regCleared (some 8), Op.poll LOW] : List (Op Nat)),
      op.registersTriggered = false) ∧
    (exec (fresh none none 0 0 : AudioAlarm Nat)
      ([Op.poll HIGH, Op.regCleared (some 8), Op.poll LOW] ++ [Op.poll HIGH])).1._lastState
      = HIGH ∧
    handlerCalls (exec (fresh none none 0 0 : AudioAlarm Nat)
      ([Op.poll HIGH, Op.regCleared (some 8), Op.poll LOW] ++ [Op.poll HIGH])).2 = [] :=
  ⟨by decide,
    (C13_cleared_never_fires_without_triggered (none : Option Nat) 0 0).1
      [Op.poll HIGH, Op.regCleared (some 8), Op.poll LOW] HIGH (by decide)⟩

theorem step_keeps_no_cleared (a : AudioAlarm H) (op : Op H)
    (hc : a._clearedHandler = none) (hop : op.registersCleared = false) :
    (step a op).1._clearedHandler = none := by
  cases op with
  | regTriggered x => exact hc
  | regCleared x =>
    cases x with
    | none => rfl
    | some h => simp [Op.registersCleared] at hop
  | poll r => exact (handleAlarm_handlers a r).2.trans hc

/-- Without a cleared handler, a poll on an initialised object whose `_lastState` is `LOW`
invokes no triggered handler and leaves `_lastState` at `LOW`. -/
theorem handleAlarm_stuck_low (a : AudioAlarm H) (r : Int)
    (hc : a._clearedHandler = none) (hi : a._initialized = true) (hl : a._lastState = LOW) :
    (handleAlarm a r).1._lastState = LOW ∧ triggeredCalls (handleAlarm a r).2 = 0 := by
  have hne := @LOW_ne_HIGH
  have hb : baseline a = LOW := (baseline_of_initialized a hi).trans hl
  have hfalse : ¬ ((r = LOW ∧ baseline a = HIGH ∧ a._triggeredHandler.isSome = true) ∨
      (r = HIGH ∧ baseline a = LOW ∧ a._clearedHandler.isSome = true)) := by
    rintro (⟨-, h, -⟩ | ⟨-, -, h⟩)
    · exact hne (hb.symm.trans h)
    · rw [hc] at h
      exact Bool.noConfusion h
  constructor
  · rw [handleAlarm_lastState, if_neg hfalse]
    exact hb
  · rw [handleAlarm_triggeredCalls, if_neg (fun h => hfalse (Or.inl h))]

theorem exec_stuck_low (ops : List (Op H)) (a : AudioAlarm H)
    (hc : a._clearedHandler = none) (hi : a._initialized = true) (hl : a._lastState = LOW)
    (hops : ∀ op ∈ ops, op.registersCleared = false) :
    (exec a ops).1._lastState = LOW ∧ triggeredCalls (exec a ops).2 = 0 := by
  induction ops generalizing a with
  | nil => exact ⟨hl, rfl⟩
  | cons op ops ih =>
    have hop := hops op (List.mem_cons_self _ _)
    have hrest : ∀ o ∈ ops, o.registersCleared = false :=
      fun o ho => hops o (List.mem_cons_of_mem _ ho)
    have hc1 := step_keeps_no_cleared a op hc hop
    simp only [exec, triggeredCalls_append]
    cases op with
    | regTriggered x =>
      have h := ih (step a (Op.regTriggered x)).1 hc1 hi hl hrest
      exact ⟨h.1, by rw [h.2]; rfl⟩
    | regCleared x =>
      have h := ih (step a (Op.regCleared x)).1 hc1 hi hl hrest
      exact ⟨h.1, by rw [h.2]; rfl⟩
    | poll r =>
      have h1 := handleAlarm_stuck_low a r hc hi hl
      have h := ih (step a (Op.poll r)).1 hc1 (handleAlarm_initialized a r) h1.1 hrest
      refine ⟨h.1, ?_⟩
      rw [h.2]
      simpa [step] using h1.2

theorem exec_at_most_once (ops : List (Op H)) (a : AudioAlarm H)
    (hc : a._clearedHandler = none)
    (hops : ∀ op ∈ ops, op.registersCleared = false) :
    (exec a ops).1._clearedHandler = none ∧
    triggeredCalls (exec a ops).2 ≤ 1 ∧
    (triggeredCalls (exec a ops).2 = 1 →
      (exec a ops).1._lastState = LOW ∧ (exec a ops).1._initialized = true) := by
  induction ops generalizing a with
  | nil => exact ⟨hc, Nat.zero_le 1, fun h => absurd h (by simp [exec, triggeredCalls])⟩
  | cons op ops ih =>
    have hop := hops op (List.mem_cons_self _ _)
    have hrest : ∀ o ∈ ops, o.registersCleared = false :=
      fun o ho => hops o (List.mem_cons_of_mem _ ho)
    have hc1 := step_keeps_no_cleared a op hc hop
    have h := ih (step a op).1 hc1 hrest
    simp only [exec, triggeredCalls_append]
    cases op with
    | regTriggered x =>
      have h0 : triggeredCalls (step a (Op.regTriggered x)).2 = 0 := rfl
      rw [h0, Nat.zero_add]
      exact h
    | regCleared x =>
      have h0 : triggeredCalls (step a (Op.regCleared x)).2 = 0 := rfl
      rw [h0, Nat.zero_add]
      exact h
    | poll r =>
      by_cases hfire : r = LOW ∧ baseline a = HIGH ∧ a._triggeredHandler.isSome = true
      · have h1 : triggeredCalls (step a (Op.poll r)).2 = 1 := by
          simp only [step]
          rw [handleAlarm_triggeredCalls, if_pos hfire]
        have hl : (step a (Op.poll r)).1._lastState = LOW := by
          simp only [step]
          rw [handleAlarm_lastState, if_pos (Or.inl hfire)]
          exact hfire.1
        have hs := exec_stuck_low ops (step a (Op.poll r)).1 hc1
          (handleAlarm_initialized a r) hl hrest
        have hi : (exec (step a (Op.poll r)).1 ops).1._initialized = true := by
          have hk : ∀ (xs : List (Op H)) (b : AudioAlarm H), b._initialized = true →
              (exec b xs).1._initialized = true := by
            intro xs
            induction xs with
            | nil => exact fun b hb => hb
            | cons o xs ihx =>
              intro b hb
              simp only [exec]
              apply ihx
              cases o with
              | regTriggered y => exact hb
              | regCleared y => exact hb
              | poll y => exact handleAlarm_initialized b y
          exact hk ops _ (handleAlarm_initialized a r)
        rw [h1, hs.2]
        exact ⟨h.1, Nat.le_refl 1, fun _ => ⟨hs.1, hi⟩⟩
      · have h0 : triggeredCalls (step a (Op.poll r)).2 = 0 := by
          simp only [step]
          rw [handleAlarm_triggeredCalls, if_neg hfire]
        rw [h0, Nat.zero_add]
        exact h

/-- C14. If no cleared handler is ever registered then, whatever triggered handlers are
registered at whatever time and whatever the readings, the triggered handler is invoked at
most once in total; and once it has been invoked, every further sequence of calls leaves
`_lastState` at `LOW` and invokes the triggered handler no more, so later `HIGH`-to-`LOW`
transitions are not reported. -/
theorem C14_triggered_fires_at_most_once_without_cleared (t : Option H) (cur last : Int)
    (ops more : List (Op H))
    (hops : ∀ op ∈ ops, op.registersCleared = false)
    (hmore : ∀ op ∈ more, op.registersCleared = false) :
    triggeredCalls (exec (fresh t none cur last) ops).2 ≤ 1 ∧
    (triggeredCalls (exec (fresh t none cur last) ops).2 = 1 →
      (exec (fresh t none cur last) (ops ++ more)).1._lastState = LOW ∧
      triggeredCalls (exec (exec (fresh t none cur last) ops).1 more).2 = 0 ∧
      triggeredCalls (exec (fresh t none cur last) (ops ++ more)).2 = 1) := by
  have h := exec_at_most_once ops (fresh t none cur last) rfl hops
  refine ⟨h.2.1, fun hfired => ?_⟩
  have hst := h.2.2 hfired
  have hs := exec_stuck_low more (exec (fresh t none cur last) ops).1 h.1 hst.2 hst.1 hmore
  refine ⟨?_, hs.2, ?_⟩
  · rw [exec_append_fst]
    exact hs.1
  · rw [exec_append_snd, triggeredCalls_append, hfired, hs.2]

/-- C14, applied to polls `HIGH`, `LOW` (the triggered handler fires) followed by polls
`HIGH`, `LOW` with a new triggered handler registered in between. -/
theorem C14_triggered_fires_at_most_once_without_cleared_witness :
    (∀ op ∈ ([Op.poll HIGH, Op.poll LOW] : List (Op Nat)), op.registersCleared = false) ∧
    (∀ op ∈ ([Op.poll HIGH, Op.regTriggered (some 9), Op.poll LOW] : List (Op Nat)),
      op.registersCleared = false) ∧
    triggeredCalls (exec (fresh (some 7) none 0 0 : AudioAlarm Nat)
      [Op.poll HIGH, Op.poll LOW]).2 = 1 ∧
    (exec (fresh (some 7) none 0 0 : AudioAlarm Nat) ([Op.poll HIGH, Op.poll LOW] ++
      [Op.poll HIGH, Op.regTriggered (some 9), Op.poll LOW])).1._lastState = LOW ∧
    triggeredCalls (exec (exec (fresh (some 7) none 0 0 : AudioAlarm Nat)
      [Op.poll HIGH, Op.poll LOW]).1
      [Op.poll HIGH, Op.regTriggered (some 9), Op.poll LOW]).2 = 0 ∧
    triggeredCalls (exec (fresh (some 7) none 0 0 : AudioAlarm Nat) ([Op.poll HIGH, Op.poll LOW] ++
      [Op.poll HIGH, Op.regTriggered (some 9), Op.poll LOW])).2 = 1 :=
  ⟨by decide, by decide, by decide,
    (C14_triggered_fires_at_most_once_without_cleared (some (7 : Nat)) 0 0
      [Op.poll HIGH, Op.poll LOW] [Op.poll HIGH, Op.regTriggered (some 9), Op.poll LOW]
      (by decide) (by decide)).2 (by decide)⟩

/-- C15. Registration touches only its own slot: for every object and handler argument,
`onAlarmTriggered` leaves `_clearedHandler`, `_lastState`, `_currentState` and
`_initialized` unchanged, `onAlarmCleared` leaves `_triggeredHandler`, `_lastState`,
`_currentState` and `_initialized` unchanged, and neither call has any effect, so neither
invokes a handler. -/
theorem C15_registration_touches_own_slot (a : AudioAlarm H) (h : Option H) :
    ((onAlarmTriggered a h)._clearedHandler = a._clearedHandler ∧
      (onAlarmTriggered a h)._lastState = a._lastState ∧
      (onAlarmTriggered a h)._currentState = a._currentState ∧
      (onAlarmTriggered a h)._initialized = a._initialized) ∧
    ((onAlarmCleared a h)._triggeredHandler = a._triggeredHandler ∧
      (onAlarmCleared a h)._lastState = a._lastState ∧
      (onAlarmCleared a h)._currentState = a._currentState ∧
      (onAlarmCleared a h)._initialized = a._initialized) ∧
    step a (Op.regTriggered h) = (onAlarmTriggered a h, []) ∧
    step a (Op.regCleared h) = (onAlarmCleared a h, []) ∧
    handlerCalls (step a (Op.regTriggered h)).2 = [] ∧
    handlerCalls (step a (Op.regCleared h)).2 = [] :=
  ⟨⟨rfl, rfl, rfl, rfl⟩, ⟨rfl, rfl, rfl, rfl⟩, rfl, rfl, rfl, rfl⟩

end AlarmMonitor
